import Mathlib

/-!
Verification of the eventually-consistent state poller and the storage
container / share data-plane wrappers of this repository.

The generic poller (`StateChangeConf.WaitForStateContext` from the internal
`pluginsdk` package) is not present under the sources; only its call sites and
refresh functions are.  It is therefore modelled from the specification
(section 4.1) as the function `WaitFor` below, with discrete wall-clock time in
seconds and an operation modelled as an infinite sequence of results indexed
by invocation count.  The wrappers `containerCreate`, `shareCreate`,
`containerDelete` and the refresh functions `containerCreateRefresh`,
`shareCreateRefresh` are translated directly from
`internal/services/storage/shim/containers_data_plane.go` and the share
wrapper source.
-/

namespace AzurePoller

/-- Result of one invocation of a status-check operation: either a payload
together with a state label, or an error (`RefreshFunc` returning a non-nil
`error` in the source). -/
inductive PollResult (α : Type) where
  | ok (payload : α) (state : String)
  | err (msg : String)
deriving DecidableEq, Repr

/-- Modelled from the spec: the immutable configuration of one poll session
(section 4.1): pending state labels, target state labels, minimum interval
between polls, the distinguished not-found state and its consecutive-occurrence
limit, and the absolute deadline.  Time is measured in seconds from the start
of the session, so the session start is `0` and `deadline` is relative to it. -/
structure PollConfig where
  pendingStates : List String
  targetStates : List String
  minInterval : Nat
  notFoundState : String
  notFoundLimit : Nat
  deadline : Nat
deriving DecidableEq, Repr

/-- Modelled from the spec: the three terminal error kinds of section 7:
an unrecognized state or an error from the operation itself, deadline
exceeded, and not-found limit exceeded. -/
inductive WaitError where
  | unrecognizedOrOpError (msg : String)
  | deadlineExceeded
  | notFoundLimitExceeded
deriving DecidableEq, Repr

/-- Outcome of a completed poll session: the terminal result, the wall-clock
times at which the operation was invoked (in order), and the time at which the
session returned. -/
structure WaitResult (α : Type) where
  outcome : Except WaitError (α × String)
  callTimes : List Nat
  finishTime : Nat
deriving Repr

/-- Modelled from the spec: one loop of the poller (section 4.1, steps 1-4),
with explicit fuel for structural recursion.  `t` is the current time, `nf`
the consecutive not-found counter, `acc` the invocation times so far.
The operation is invoked at time `t` (its index is the number of calls so
far); a target state returns success immediately; a pending state increments
the not-found counter when it is the distinguished state and resets it
otherwise, fails once the counter exceeds the limit, sleeps `minInterval`,
and on waking either observes deadline expiry (returning the timeout error at
the deadline, without invoking the operation again) or loops; any other state,
or an error from the operation, is terminal. -/
def waitForAux {α : Type} (op : Nat → PollResult α) (cfg : PollConfig) :
    Nat → Nat → Nat → List Nat → Option (WaitResult α)
  | 0, _, _, _ => none
  | fuel + 1, t, nf, acc =>
    match op acc.length with
    | .err msg => some ⟨.error (.unrecognizedOrOpError msg), acc ++ [t], t⟩
    | .ok payload state =>
      if state ∈ cfg.targetStates then
        some ⟨.ok (payload, state), acc ++ [t], t⟩
      else if state ∈ cfg.pendingStates then
        if cfg.notFoundLimit < (if state = cfg.notFoundState then nf + 1 else 0) then
          some ⟨.error .notFoundLimitExceeded, acc ++ [t], t⟩
        else if cfg.deadline < t + cfg.minInterval then
          some ⟨.error .deadlineExceeded, acc ++ [t], cfg.deadline⟩
        else
          waitForAux op cfg fuel (t + cfg.minInterval)
            (if state = cfg.notFoundState then nf + 1 else 0) (acc ++ [t])
      else
        some ⟨.error (.unrecognizedOrOpError state), acc ++ [t], t⟩

/-- Modelled from the spec: `WaitFor(operation, config, deadline)`
(section 4.1).  The session starts at time `0` with counters zeroed; the first
invocation always happens.  The fuel `deadline + 1` is sufficient whenever
`minInterval > 0` (proved below); `none` means the fuel ran out, which the
termination theorem rules out. -/
def WaitFor {α : Type} (op : Nat → PollResult α) (cfg : PollConfig) :
    Option (WaitResult α) :=
  waitForAux op cfg (cfg.deadline + 1) 0 0 []

/-! Substring containment, modelling Go's `strings.Contains`. -/

/-- Whether the first character list is a leading segment of the second. -/
def charsLeading : List Char → List Char → Bool
  | [], _ => true
  | _ :: _, [] => false
  | p :: ps, c :: cs => (p == c) && charsLeading ps cs

/-- Whether the second character list occurs contiguously inside the first. -/
def charsContain : List Char → List Char → Bool
  | hay, pat =>
    if charsLeading pat hay then true
    else
      match hay with
      | [] => false
      | _ :: tl => charsContain tl pat

/-- Model of Go's `strings.Contains s pat`. -/
def strContains (s pat : String) : Bool :=
  charsContain s.toList pat.toList

/-! The data-plane wrappers, translated from
`internal/services/storage/shim/containers_data_plane.go` and the share
wrapper source. -/

/-- HTTP response as far as the wrappers inspect it: its status code. -/
structure HttpResponse where
  statusCode : Nat
deriving DecidableEq, Repr

/-- Model of `response.WasConflict`: HTTP 409. -/
def wasConflict (r : HttpResponse) : Bool := r.statusCode == 409

/-- Model of `response.WasNotFound`: HTTP 404. -/
def wasNotFound (r : HttpResponse) : Bool := r.statusCode == 404

/-- Outcome of one underlying client call (`resp, err := w.client...`):
the HTTP response and the error, `none` meaning a nil error. -/
structure ClientResult where
  resp : HttpResponse
  err : Option String
deriving DecidableEq, Repr

/-- Translation of `DataPlaneStorageContainerWrapper.createRefreshFunc`
applied to the outcome `c` of the `w.client.Create` call it makes: a non-nil
error with a non-conflict response is returned as the refresh error; a
conflict whose message contains "ContainerBeingDeleted" yields a nil payload
and state "waitingOnDelete"; any other case (including a conflict error whose
message lacks the marker) falls through to payload "succeeded" and state
"succeeded". -/
def containerCreateRefresh (c : ClientResult) : PollResult (Option String) :=
  match c.err with
  | some e =>
    if !wasConflict c.resp then
      .err e
    else if wasConflict c.resp && strContains e "ContainerBeingDeleted" then
      .ok none "waitingOnDelete"
    else
      .ok (some "succeeded") "succeeded"
  | none => .ok (some "succeeded") "succeeded"

/-- Translation of `DataPlaneStorageShareWrapper.createRefreshFunc`, identical
to the container version with marker "ShareBeingDeleted". -/
def shareCreateRefresh (c : ClientResult) : PollResult (Option String) :=
  match c.err with
  | some e =>
    if !wasConflict c.resp then
      .err e
    else if wasConflict c.resp && strContains e "ShareBeingDeleted" then
      .ok none "waitingOnDelete"
    else
      .ok (some "succeeded") "succeeded"
  | none => .ok (some "succeeded") "succeeded"

/-- Poll configuration built at the container and share `Create` call sites:
`Pending: ["waitingOnDelete"]`, `Target: ["succeeded"]`,
`PollInterval: 10 * time.Second`, `NotFoundChecks: 180`, and `Timeout` equal
to the remaining context budget (`time.Until(timeout)`), here the relative
deadline.  The distinguished not-found state is the nil-payload pending state
"waitingOnDelete" produced by the refresh functions. -/
def containerCreatePollConfig (deadline : Nat) : PollConfig :=
  { pendingStates := ["waitingOnDelete"]
    targetStates := ["succeeded"]
    minInterval := 10
    notFoundState := "waitingOnDelete"
    notFoundLimit := 180
    deadline := deadline }

/-- Poll configuration built in `resourceStorageShareDirectoryCreate`:
`Pending: ["404"]`, `Target: ["200"]`, `MinTimeout: 10 * time.Second`, and the
create timeout as deadline.  The distinguished not-found state is modelled as
the 404-equivalent pending state per the spec, with the observed default
limit 180. -/
def shareDirectoryPollConfig (deadline : Nat) : PollConfig :=
  { pendingStates := ["404"]
    targetStates := ["200"]
    minInterval := 10
    notFoundState := "404"
    notFoundLimit := 180
    deadline := deadline }

/-- Modelled from the spec: the user-facing message for each terminal poll
error (section 7); only distinctness between the kinds matters below. -/
def waitErrorMessage : WaitError → String
  | .unrecognizedOrOpError m => m
  | .deadlineExceeded => "timeout while waiting for state"
  | .notFoundLimitExceeded => "couldn't find resource"

/-- Observable trace of one wrapper `Create`/`Delete` call: whether a poll
session was started, how many underlying client calls were issued, and the
returned error (`none` meaning a nil error). -/
structure CreateTrace where
  polled : Bool
  clientCalls : Nat
  result : Option String
deriving DecidableEq, Repr

/-- Translation of `DataPlaneStorageContainerWrapper.Create`: a context with
no deadline fails at once with "context is missing a timeout"; otherwise the
client `Create` is issued; on a nil error the wrapper returns nil; on a
conflict whose message contains "ContainerBeingDeleted" a poll session with
`containerCreatePollConfig` runs, its refresh invoking the client `Create`
again each poll (`poll k` is the outcome of the k-th such call), and a poll
error is wrapped as "failed creating container: ..."; any other error is
returned wrapped, with no polling. -/
def containerCreate (deadline : Option Nat) (first : ClientResult)
    (poll : Nat → ClientResult) : CreateTrace :=
  match deadline with
  | none => ⟨false, 0, some "context is missing a timeout"⟩
  | some dl =>
    match first.err with
    | none => ⟨false, 1, none⟩
    | some e =>
      if wasConflict first.resp && strContains e "ContainerBeingDeleted" then
        match WaitFor (fun k => containerCreateRefresh (poll k))
            (containerCreatePollConfig dl) with
        | some r =>
          ⟨true, 1 + r.callTimes.length,
            match r.outcome with
            | .ok _ => none
            | .error we => some ("failed creating container: " ++ waitErrorMessage we)⟩
        | none => ⟨true, 1, some "poll model out of fuel"⟩
      else
        ⟨false, 1, some ("failed creating container: " ++ e)⟩

/-- Translation of `DataPlaneStorageShareWrapper.Create`: as the container
version with marker "ShareBeingDeleted", except that the poll error and the
non-retryable error are returned unwrapped. -/
def shareCreate (deadline : Option Nat) (first : ClientResult)
    (poll : Nat → ClientResult) : CreateTrace :=
  match deadline with
  | none => ⟨false, 0, some "context is missing a timeout"⟩
  | some dl =>
    match first.err with
    | none => ⟨false, 1, none⟩
    | some e =>
      if wasConflict first.resp && strContains e "ShareBeingDeleted" then
        match WaitFor (fun k => shareCreateRefresh (poll k))
            (containerCreatePollConfig dl) with
        | some r =>
          ⟨true, 1 + r.callTimes.length,
            match r.outcome with
            | .ok _ => none
            | .error we => some (waitErrorMessage we)⟩
        | none => ⟨true, 1, some "poll model out of fuel"⟩
      else
        ⟨false, 1, some e⟩

/-- Translation of `DataPlaneStorageContainerWrapper.Delete` applied to the
outcome of its `w.client.Delete` call: a 404 response yields a nil error,
otherwise the client error is returned. -/
def containerDelete (c : ClientResult) : Option String :=
  if wasNotFound c.resp then none else c.err

/-! Helper lemmas about the poll loop. -/

/-- Unfolding of one iteration of the poll loop. -/
theorem waitForAux_succ {α : Type} (op : Nat → PollResult α) (cfg : PollConfig)
    (fuel t nf : Nat) (acc : List Nat) :
    waitForAux op cfg (fuel + 1) t nf acc =
      match op acc.length with
      | .err msg => some ⟨.error (.unrecognizedOrOpError msg), acc ++ [t], t⟩
      | .ok payload state =>
        if state ∈ cfg.targetStates then
          some ⟨.ok (payload, state), acc ++ [t], t⟩
        else if state ∈ cfg.pendingStates then
          if cfg.notFoundLimit < (if state = cfg.notFoundState then nf + 1 else 0) then
            some ⟨.error .notFoundLimitExceeded, acc ++ [t], t⟩
          else if cfg.deadline < t + cfg.minInterval then
            some ⟨.error .deadlineExceeded, acc ++ [t], cfg.deadline⟩
          else
            waitForAux op cfg fuel (t + cfg.minInterval)
              (if state = cfg.notFoundState then nf + 1 else 0) (acc ++ [t])
        else
          some ⟨.error (.unrecognizedOrOpError state), acc ++ [t], t⟩ := rfl

/-- With a positive minimum interval, fuel exceeding the remaining budget, and
a start time within the deadline, the poll loop completes. -/
theorem waitForAux_isSome {α : Type} (op : Nat → PollResult α) (cfg : PollConfig)
    (hmi : 0 < cfg.minInterval) :
    ∀ fuel t nf acc, t ≤ cfg.deadline → cfg.deadline < t + fuel →
      (waitForAux op cfg fuel t nf acc).isSome = true := by
  intro fuel
  induction fuel with
  | zero => intro t nf acc ht hf; omega
  | succ m ih =>
    intro t nf acc ht hf
    rw [waitForAux_succ]
    cases hop : op acc.length with
    | err msg => simp only [hop]; rfl
    | ok payload state =>
      simp only [hop]
      by_cases htgt : state ∈ cfg.targetStates
      · rw [if_pos htgt]; rfl
      · rw [if_neg htgt]
        by_cases hpend : state ∈ cfg.pendingStates
        · rw [if_pos hpend]
          by_cases hnf : cfg.notFoundLimit <
              (if state = cfg.notFoundState then nf + 1 else 0)
          · rw [if_pos hnf]; rfl
          · rw [if_neg hnf]
            by_cases hdl : cfg.deadline < t + cfg.minInterval
            · rw [if_pos hdl]; rfl
            · rw [if_neg hdl]
              exact ih (t + cfg.minInterval) _ _ (by omega) (by omega)
        · rw [if_neg hpend]; rfl

/-- Whenever the poll loop starts within the deadline, it finishes no later
than the deadline (the timeout branch wakes at the deadline itself, every
other branch returns at the time of the last invocation). -/
theorem waitForAux_finishTime_le {α : Type} (op : Nat → PollResult α)
    (cfg : PollConfig) :
    ∀ fuel t nf acc r, t ≤ cfg.deadline →
      waitForAux op cfg fuel t nf acc = some r → r.finishTime ≤ cfg.deadline := by
  intro fuel
  induction fuel with
  | zero => intro t nf acc r ht h; simp [waitForAux] at h
  | succ m ih =>
    intro t nf acc r ht h
    rw [waitForAux_succ] at h
    cases hop : op acc.length with
    | err msg => simp only [hop] at h; cases h; exact ht
    | ok payload state =>
      simp only [hop] at h
      by_cases htgt : state ∈ cfg.targetStates
      · rw [if_pos htgt] at h; cases h; exact ht
      · rw [if_neg htgt] at h
        by_cases hpend : state ∈ cfg.pendingStates
        · rw [if_pos hpend] at h
          by_cases hnf : cfg.notFoundLimit <
              (if state = cfg.notFoundState then nf + 1 else 0)
          · rw [if_pos hnf] at h; cases h; exact ht
          · rw [if_neg hnf] at h
            by_cases hdl : cfg.deadline < t + cfg.minInterval
            · rw [if_pos hdl] at h; cases h; exact Nat.le_refl _
            · rw [if_neg hdl] at h
              exact ih _ _ _ _ (by omega) h
        · rw [if_neg hpend] at h; cases h; exact ht

/-- C1: with a positive minimum interval the poll session always terminates,
returning a result (success, operation error, timeout, or not-found-limit
exceeded) no later than the deadline. -/
theorem waitFor_terminates {α : Type} (op : Nat → PollResult α) (cfg : PollConfig)
    (hmi : 0 < cfg.minInterval) :
    ∃ r, WaitFor op cfg = some r ∧ r.finishTime ≤ cfg.deadline := by
  have h1 := waitForAux_isSome op cfg hmi (cfg.deadline + 1) 0 0 []
    (Nat.zero_le _) (by omega)
  obtain ⟨r, hr⟩ := Option.isSome_iff_exists.mp h1
  exact ⟨r, hr,
    waitForAux_finishTime_le op cfg (cfg.deadline + 1) 0 0 [] r (Nat.zero_le _) hr⟩

/-- Witness for C1 at the container create poll configuration with a
60-second budget and an operation that is immediately in the target state. -/
theorem waitFor_terminates_witness :
    ∃ r, WaitFor (fun _ => PollResult.ok () "succeeded")
        (containerCreatePollConfig 60) = some r ∧
      r.finishTime ≤ (containerCreatePollConfig 60).deadline :=
  waitFor_terminates (fun _ => PollResult.ok () "succeeded")
    (containerCreatePollConfig 60) (by decide)

/-- Every completed poll loop extends the accumulated invocation times while
preserving the minimum spacing between successive invocations. -/
theorem waitForAux_spacing {α : Type} (op : Nat → PollResult α) (cfg : PollConfig) :
    ∀ fuel t nf acc r,
      List.Chain' (fun a b => a + cfg.minInterval ≤ b) (acc ++ [t]) →
      waitForAux op cfg fuel t nf acc = some r →
      List.Chain' (fun a b => a + cfg.minInterval ≤ b) r.callTimes := by
  intro fuel
  induction fuel with
  | zero => intro t nf acc r _ h; simp [waitForAux] at h
  | succ m ih =>
    intro t nf acc r hacc h
    rw [waitForAux_succ] at h
    cases hop : op acc.length with
    | err msg => simp only [hop] at h; cases h; exact hacc
    | ok payload state =>
      simp only [hop] at h
      by_cases htgt : state ∈ cfg.targetStates
      · rw [if_pos htgt] at h; cases h; exact hacc
      · rw [if_neg htgt] at h
        by_cases hpend : state ∈ cfg.pendingStates
        · rw [if_pos hpend] at h
          by_cases hnf : cfg.notFoundLimit <
              (if state = cfg.notFoundState then nf + 1 else 0)
          · rw [if_pos hnf] at h; cases h; exact hacc
          · rw [if_neg hnf] at h
            by_cases hdl : cfg.deadline < t + cfg.minInterval
            · rw [if_pos hdl] at h; cases h; exact hacc
            · rw [if_neg hdl] at h
              refine ih _ _ _ _ ?_ h
              rw [List.chain'_append]
              refine ⟨hacc, List.chain'_singleton _, ?_⟩
              intro x hx y hy
              rw [List.getLast?_concat] at hx
              simp only [Option.mem_def, Option.some.injEq] at hx
              simp only [List.head?_cons, Option.mem_def, Option.some.injEq] at hy
              omega
        · rw [if_neg hpend] at h; cases h; exact hacc

/-- C6: within one session, every pair of successive invocations of the
operation is separated by at least the configured minimum interval. -/
theorem waitFor_min_spacing {α : Type} (op : Nat → PollResult α) (cfg : PollConfig)
    (r : WaitResult α) (h : WaitFor op cfg = some r) :
    List.Chain' (fun a b => a + cfg.minInterval ≤ b) r.callTimes := by
  refine waitForAux_spacing op cfg (cfg.deadline + 1) 0 0 [] r ?_ h
  simp

/-- Witness for C6: a session at the 10-second container create configuration
that polls three times records invocation times spaced by at least 10s. -/
theorem waitFor_min_spacing_witness :
    List.Chain' (fun a b => a + (containerCreatePollConfig 25).minInterval ≤ b)
      ([0, 10, 20] : List Nat) :=
  waitFor_min_spacing (fun _ => PollResult.ok () "waitingOnDelete")
    (containerCreatePollConfig 25)
    ⟨.error .deadlineExceeded, [0, 10, 20], 25⟩ rfl

/-- C3: if the first invocation of the operation returns a target state, the
poller returns success with that invocation's payload after exactly one
invocation (at time 0, one recorded call). -/
theorem waitFor_first_target_success {α : Type} (op : Nat → PollResult α)
    (cfg : PollConfig) (p : α) (s : String)
    (h0 : op 0 = .ok p s) (ht : s ∈ cfg.targetStates) :
    WaitFor op cfg = some ⟨.ok (p, s), [0], 0⟩ := by
  unfold WaitFor
  rw [waitForAux_succ]
  simp only [List.length_nil, h0, List.nil_append]
  rw [if_pos ht]

/-- Witness for C3 under the storage-share-directory configuration
(pending {"404"}, target {"200"}, 10-second minimum interval). -/
theorem waitFor_first_target_success_witness :
    WaitFor (fun _ => PollResult.ok "created" "200") (shareDirectoryPollConfig 1800) =
      some ⟨.ok ("created", "200"), [0], 0⟩ :=
  waitFor_first_target_success (fun _ => PollResult.ok "created" "200")
    (shareDirectoryPollConfig 1800) "created" "200" rfl (by decide)

/-- C7: under the storage-share-directory configuration with deadline 60s, an
operation returning "404" on its first three invocations and "200" on the
fourth yields success on the 4th call, with the four invocations recorded at
times 0, 10, 20, 30 (so 30 ≥ 30 seconds elapsed and exactly 4 invocations). -/
theorem waitFor_shareDirectory_scenario :
    WaitFor (fun k => if k < 3 then PollResult.ok "pending" "404"
        else PollResult.ok "created" "200") (shareDirectoryPollConfig 60) =
      some ⟨.ok ("created", "200"), [0, 10, 20, 30], 30⟩ ∧
    ([0, 10, 20, 30] : List Nat).length = 4 ∧ (30 : Nat) ≥ 3 * 10 := by
  refine ⟨?_, rfl, by decide⟩
  rfl

/-- When every invocation reports a pending state that is neither a target
nor the distinguished not-found state, the poll loop runs to the deadline and
times out, never invoking the operation past the deadline. -/
theorem waitForAux_always_pending {α : Type} (op : Nat → PollResult α)
    (cfg : PollConfig) (hmi : 0 < cfg.minInterval)
    (hop : ∀ k, ∃ p s, op k = .ok p s ∧ s ∈ cfg.pendingStates ∧
      s ∉ cfg.targetStates ∧ s ≠ cfg.notFoundState) :
    ∀ fuel t nf acc, t ≤ cfg.deadline → cfg.deadline < t + fuel →
      (∀ x ∈ acc, x ≤ cfg.deadline) →
      ∃ r, waitForAux op cfg fuel t nf acc = some r ∧
        r.outcome = .error .deadlineExceeded ∧ r.finishTime = cfg.deadline ∧
        ∀ x ∈ r.callTimes, x ≤ cfg.deadline := by
  intro fuel
  induction fuel with
  | zero => intro t nf acc ht hf hacc; omega
  | succ m ih =>
    intro t nf acc ht hf hacc
    obtain ⟨p, s, hk, hpend, htgt, hnfs⟩ := hop acc.length
    rw [waitForAux_succ]
    simp only [hk]
    rw [if_neg htgt, if_pos hpend, if_neg hnfs]
    rw [if_neg (Nat.not_lt_zero cfg.notFoundLimit)]
    by_cases hdl : cfg.deadline < t + cfg.minInterval
    · rw [if_pos hdl]
      refine ⟨_, rfl, rfl, rfl, ?_⟩
      intro x hx
      rw [List.mem_append] at hx
      rcases hx with hx | hx
      · exact hacc x hx
      · simp only [List.mem_singleton] at hx; omega
    · rw [if_neg hdl]
      refine ih (t + cfg.minInterval) 0 (acc ++ [t]) (by omega) (by omega) ?_
      intro x hx
      rw [List.mem_append] at hx
      rcases hx with hx | hx
      · exact hacc x hx
      · simp only [List.mem_singleton] at hx; omega

/-- C4: if every invocation of the operation returns a pending
non-distinguished state, the session fails with Deadline Exceeded at the
deadline and the operation is never invoked after the deadline has elapsed. -/
theorem waitFor_always_pending_timeout {α : Type} (op : Nat → PollResult α)
    (cfg : PollConfig) (hmi : 0 < cfg.minInterval)
    (hop : ∀ k, ∃ p s, op k = .ok p s ∧ s ∈ cfg.pendingStates ∧
      s ∉ cfg.targetStates ∧ s ≠ cfg.notFoundState) :
    ∃ r, WaitFor op cfg = some r ∧
      r.outcome = .error .deadlineExceeded ∧ r.finishTime = cfg.deadline ∧
      ∀ x ∈ r.callTimes, x ≤ cfg.deadline :=
  waitForAux_always_pending op cfg hmi hop (cfg.deadline + 1) 0 0 []
    (Nat.zero_le _) (by omega) (by intro x hx; cases hx)

/-- Witness for C4: an operation stuck in a pending state under a 25-second
deadline with 10-second interval times out at 25s, with every invocation at
or before the deadline. -/
theorem waitFor_always_pending_timeout_witness :
    ∃ r, WaitFor (fun _ => PollResult.ok () "creating")
        (⟨["creating"], ["succeeded"], 10, "notFound", 180, 25⟩ : PollConfig) = some r ∧
      r.outcome = .error .deadlineExceeded ∧
      r.finishTime = (⟨["creating"], ["succeeded"], 10, "notFound", 180, 25⟩ : PollConfig).deadline ∧
      ∀ x ∈ r.callTimes,
        x ≤ (⟨["creating"], ["succeeded"], 10, "notFound", 180, 25⟩ : PollConfig).deadline :=
  waitFor_always_pending_timeout (fun _ => PollResult.ok () "creating")
    ⟨["creating"], ["succeeded"], 10, "notFound", 180, 25⟩ (by decide)
    (fun _ => ⟨(), "creating", rfl, by decide, by decide, by decide⟩)

/-- When every invocation reports the distinguished not-found pending state,
the poll loop fails once the consecutive counter exceeds the limit, at time
`notFoundLimit * minInterval`, after exactly `notFoundLimit + 1` invocations.
The loop is entered at time `nf * minInterval` with `nf` consecutive
not-found results and `nf` recorded invocations. -/
theorem waitForAux_notFound {α : Type} (op : Nat → PollResult α)
    (cfg : PollConfig)
    (hnfp : cfg.notFoundState ∈ cfg.pendingStates)
    (hnft : cfg.notFoundState ∉ cfg.targetStates)
    (hop : ∀ k, ∃ p, op k = .ok p cfg.notFoundState)
    (hdl : cfg.notFoundLimit * cfg.minInterval < cfg.deadline) :
    ∀ fuel nf acc, nf ≤ cfg.notFoundLimit → acc.length = nf →
      cfg.notFoundLimit + 1 ≤ fuel + nf →
      ∃ r, waitForAux op cfg fuel (nf * cfg.minInterval) nf acc = some r ∧
        r.outcome = .error .notFoundLimitExceeded ∧
        r.finishTime = cfg.notFoundLimit * cfg.minInterval ∧
        r.callTimes.length = cfg.notFoundLimit + 1 := by
  intro fuel
  induction fuel with
  | zero => intro nf acc hnf hlen hfuel; omega
  | succ m ih =>
    intro nf acc hnf hlen hfuel
    obtain ⟨p, hk⟩ := hop acc.length
    rw [waitForAux_succ]
    simp only [hk]
    rw [if_neg hnft, if_pos hnfp]
    simp only [if_true]
    by_cases hlim : cfg.notFoundLimit < nf + 1
    · rw [if_pos hlim]
      have heq : nf = cfg.notFoundLimit := by omega
      subst heq
      refine ⟨_, rfl, rfl, rfl, ?_⟩
      simp [hlen]
    · rw [if_neg hlim]
      have h1 : (nf + 1) * cfg.minInterval ≤ cfg.notFoundLimit * cfg.minInterval :=
        Nat.mul_le_mul_right _ (by omega)
      rw [Nat.succ_mul] at h1
      rw [if_neg (show ¬ cfg.deadline < nf * cfg.minInterval + cfg.minInterval by omega)]
      rw [show nf * cfg.minInterval + cfg.minInterval = (nf + 1) * cfg.minInterval from
        (Nat.succ_mul nf cfg.minInterval).symm]
      refine ih (nf + 1) (acc ++ [nf * cfg.minInterval]) (by omega) ?_ (by omega)
      simp [hlen]

/-- C5: if the operation returns the distinguished not-found pending state
more than `notFoundLimit` consecutive times, the session fails with
Not-Found-Limit Exceeded strictly before the deadline, given a positive
interval and `deadline > notFoundLimit * minInterval`. -/
theorem waitFor_notFound_limit {α : Type} (op : Nat → PollResult α)
    (cfg : PollConfig) (hmi : 0 < cfg.minInterval)
    (hnfp : cfg.notFoundState ∈ cfg.pendingStates)
    (hnft : cfg.notFoundState ∉ cfg.targetStates)
    (hop : ∀ k, ∃ p, op k = .ok p cfg.notFoundState)
    (hdl : cfg.notFoundLimit * cfg.minInterval < cfg.deadline) :
    ∃ r, WaitFor op cfg = some r ∧
      r.outcome = .error .notFoundLimitExceeded ∧
      r.finishTime < cfg.deadline ∧
      r.callTimes.length = cfg.notFoundLimit + 1 := by
  have hle : cfg.notFoundLimit ≤ cfg.notFoundLimit * cfg.minInterval :=
    Nat.le_mul_of_pos_right cfg.notFoundLimit hmi
  have := waitForAux_notFound op cfg hnfp hnft hop hdl (cfg.deadline + 1) 0 []
    (Nat.zero_le _) rfl (by omega)
  rw [Nat.zero_mul] at this
  obtain ⟨r, hr, ho, hf, hc⟩ := this
  exact ⟨r, hr, ho, by omega, hc⟩

/-- Witness for C5: polling an object that never appears, with not-found
limit 2, 10-second interval and 25-second deadline, fails after 3
invocations at 20s, before the deadline. -/
theorem waitFor_notFound_limit_witness :
    ∃ r, WaitFor (fun _ => PollResult.ok () "notFound")
        (⟨["notFound"], ["succeeded"], 10, "notFound", 2, 25⟩ : PollConfig) = some r ∧
      r.outcome = .error .notFoundLimitExceeded ∧
      r.finishTime < (⟨["notFound"], ["succeeded"], 10, "notFound", 2, 25⟩ : PollConfig).deadline ∧
      r.callTimes.length =
        (⟨["notFound"], ["succeeded"], 10, "notFound", 2, 25⟩ : PollConfig).notFoundLimit + 1 :=
  waitFor_notFound_limit (fun _ => PollResult.ok () "notFound")
    ⟨["notFound"], ["succeeded"], 10, "notFound", 2, 25⟩
    (by decide) (by decide) (by decide) (fun _ => ⟨(), rfl⟩) (by decide)

/-- C9: a context carrying no deadline makes both the container and the share
`Create` wrappers fail immediately with "context is missing a timeout",
issuing zero client calls and starting no poll session. -/
theorem create_missing_deadline (first : ClientResult) (poll : Nat → ClientResult) :
    containerCreate none first poll = ⟨false, 0, some "context is missing a timeout"⟩ ∧
    shareCreate none first poll = ⟨false, 0, some "context is missing a timeout"⟩ :=
  ⟨rfl, rfl⟩

/-- C10: when the underlying delete call responds with HTTP 404, the container
wrapper's `Delete` returns a nil error regardless of the client error. -/
theorem delete_not_found_success (c : ClientResult)
    (h : wasNotFound c.resp = true) : containerDelete c = none := by
  unfold containerDelete
  rw [h]
  rfl

/-- Witness for C10: deleting an already-absent container (404 with an error)
returns a nil error. -/
theorem delete_not_found_success_witness :
    containerDelete ⟨⟨404⟩, some "the specified container does not exist"⟩ = none :=
  delete_not_found_success ⟨⟨404⟩, some "the specified container does not exist"⟩ rfl

/-- C2 counterexample: a conflict error from the underlying Create whose
message does not contain "ContainerBeingDeleted" (here "ContainerAlreadyExists")
is classified by the refresh operation as the success state "succeeded", not
returned as an error; a whole create session whose first retryable conflict is
followed by such an error therefore returns success (`result = none`) after
one poll, contradicting the claim that every error from the underlying Create
fails the session. -/
theorem createRefresh_conflict_swallowed_counterexample :
    containerCreateRefresh ⟨⟨409⟩, some "ContainerAlreadyExists"⟩ =
      PollResult.ok (some "succeeded") "succeeded" ∧
    shareCreateRefresh ⟨⟨409⟩, some "ShareAlreadyExists"⟩ =
      PollResult.ok (some "succeeded") "succeeded" ∧
    containerCreate (some 3600) ⟨⟨409⟩, some "409 ContainerBeingDeleted"⟩
        (fun _ => ⟨⟨409⟩, some "ContainerAlreadyExists"⟩) =
      ⟨true, 2, none⟩ :=
  ⟨rfl, rfl, rfl⟩

/-- C2 amended: a state outside both sets, or an error from the operation
itself, ends the session immediately with that error and the operation is not
invoked again (exactly one recorded invocation); in the create refresh
operations a non-conflict error from the underlying Create is returned as the
terminal refresh error and a marked conflict is the pending state
"waitingOnDelete", but a conflict error whose message lacks the marker is
classified as the success state "succeeded" rather than failing. -/
theorem waitFor_terminal_classification {α : Type} (op : Nat → PollResult α)
    (cfg : PollConfig) (c : ClientResult) (e : String) :
    (∀ msg, op 0 = .err msg →
      WaitFor op cfg = some ⟨.error (.unrecognizedOrOpError msg), [0], 0⟩) ∧
    (∀ p s, op 0 = .ok p s → s ∉ cfg.targetStates → s ∉ cfg.pendingStates →
      WaitFor op cfg = some ⟨.error (.unrecognizedOrOpError s), [0], 0⟩) ∧
    (c.err = some e → wasConflict c.resp = false →
      containerCreateRefresh c = .err e ∧ shareCreateRefresh c = .err e) ∧
    (c.err = some e → wasConflict c.resp = true →
      strContains e "ContainerBeingDeleted" = true →
      containerCreateRefresh c = .ok none "waitingOnDelete") ∧
    (c.err = some e → wasConflict c.resp = true →
      strContains e "ContainerBeingDeleted" = false →
      containerCreateRefresh c = .ok (some "succeeded") "succeeded") ∧
    (c.err = some e → wasConflict c.resp = true →
      strContains e "ShareBeingDeleted" = true →
      shareCreateRefresh c = .ok none "waitingOnDelete") ∧
    (c.err = some e → wasConflict c.resp = true →
      strContains e "ShareBeingDeleted" = false →
      shareCreateRefresh c = .ok (some "succeeded") "succeeded") := by
  refine ⟨?_, ?_, ?_, ?_, ?_, ?_, ?_⟩
  · intro msg h0
    unfold WaitFor
    rw [waitForAux_succ]
    simp only [List.length_nil, h0, List.nil_append]
  · intro p s h0 htgt hpend
    unfold WaitFor
    rw [waitForAux_succ]
    simp only [List.length_nil, h0, List.nil_append]
    rw [if_neg htgt, if_neg hpend]
  · intro he hc
    constructor <;> simp [containerCreateRefresh, shareCreateRefresh, he, hc]
  · intro he hc hm
    simp [containerCreateRefresh, he, hc, hm]
  · intro he hc hm
    simp [containerCreateRefresh, he, hc, hm]
  · intro he hc hm
    simp [shareCreateRefresh, he, hc, hm]
  · intro he hc hm
    simp [shareCreateRefresh, he, hc, hm]

/-- Witness for the amended C2: an operation whose first result is an error
ends the session at once with that error after a single invocation. -/
theorem waitFor_terminal_classification_witness :
    WaitFor (fun _ => (PollResult.err "boom" : PollResult Unit))
        (containerCreatePollConfig 60) =
      some ⟨.error (.unrecognizedOrOpError "boom"), [0], 0⟩ :=
  (waitFor_terminal_classification (fun _ => (PollResult.err "boom" : PollResult Unit))
    (containerCreatePollConfig 60) ⟨⟨409⟩, some "x"⟩ "x").1 "boom" rfl

/-- C8: the container and share Create wrappers start a poll session exactly
when the initial create fails with a conflict whose message contains the
being-deleted marker; an initial success returns at once with one client call
and no polling, and any other initial failure returns that error (wrapped for
the container wrapper) with one client call and no polling. -/
theorem create_polls_only_on_marked_conflict (dl : Nat) (first : ClientResult)
    (poll : Nat → ClientResult) :
    (first.err = none →
      containerCreate (some dl) first poll = ⟨false, 1, none⟩ ∧
      shareCreate (some dl) first poll = ⟨false, 1, none⟩) ∧
    (∀ e, first.err = some e →
      (wasConflict first.resp && strContains e "ContainerBeingDeleted") = false →
      containerCreate (some dl) first poll =
        ⟨false, 1, some ("failed creating container: " ++ e)⟩) ∧
    (∀ e, first.err = some e →
      (wasConflict first.resp && strContains e "ShareBeingDeleted") = false →
      shareCreate (some dl) first poll = ⟨false, 1, some e⟩) ∧
    (∀ e, first.err = some e →
      (wasConflict first.resp && strContains e "ContainerBeingDeleted") = true →
      (containerCreate (some dl) first poll).polled = true) ∧
    (∀ e, first.err = some e →
      (wasConflict first.resp && strContains e "ShareBeingDeleted") = true →
      (shareCreate (some dl) first poll).polled = true) := by
  refine ⟨?_, ?_, ?_, ?_, ?_⟩
  · intro h
    constructor <;> simp [containerCreate, shareCreate, h]
  · intro e h hc
    simp [containerCreate, h, hc]
  · intro e h hc
    simp [shareCreate, h, hc]
  · intro e h hc
    simp only [containerCreate, h, hc, if_true]
    cases WaitFor (fun k => containerCreateRefresh (poll k))
        (containerCreatePollConfig dl) <;> rfl
  · intro e h hc
    simp only [shareCreate, h, hc, if_true]
    cases WaitFor (fun k => shareCreateRefresh (poll k))
        (containerCreatePollConfig dl) <;> rfl

/-- Witness for C8: an initial create that succeeds returns immediately with
a single client call and no poll session, for both wrappers. -/
theorem create_polls_only_on_marked_conflict_witness :
    containerCreate (some 3600) ⟨⟨201⟩, none⟩ (fun _ => ⟨⟨201⟩, none⟩) =
      ⟨false, 1, none⟩ ∧
    shareCreate (some 3600) ⟨⟨201⟩, none⟩ (fun _ => ⟨⟨201⟩, none⟩) =
      ⟨false, 1, none⟩ :=
  (create_polls_only_on_marked_conflict 3600 ⟨⟨201⟩, none⟩ (fun _ => ⟨⟨201⟩, none⟩)).1 rfl

end AzurePoller
